import Mathlib

/-!
# Verification of the personal volatility analysis script

A shallow embedding of `src/volatility_analysis.py`: a straight-line script
that builds one record per day of 2025, randomly assigns a category and a
utility score to each day, overwrites a fixed list of dates with manually
entered observations, and exports the final table to a CSV file.

Randomness (`np.random.*`) is modelled by passing explicit streams of raw
draws (`Nat → Nat`); each numpy primitive maps its raw draw into the right
range, so every theorem quantifies over all possible random outcomes.
-/

set_option maxRecDepth 100000

namespace Volatility

/-- One row of the dataframe: a date string (`YYYY-MM-DD`), a category label,
and a utility score.  The score is an `Option` because the Python scoring
function implicitly returns `None` on an unrecognised category. -/
structure DayRecord where
  date : String
  category : String
  score : Option Nat
deriving DecidableEq, Repr

/-! ## Stage 1: the calendar (`pd.date_range('2025-01-01', '2025-12-31')`) -/

/-- Days in each month of 2025 (not a leap year). -/
def monthLengths : List Nat := [31, 28, 31, 30, 31, 30, 31, 31, 30, 31, 30, 31]

/-- Zero-padded two-digit rendering of a month or day number. -/
def pad2 (n : Nat) : String := if n < 10 then "0" ++ toString n else toString n

/-- The `YYYY-MM-DD` rendering of a 2025 date, as pandas formats it. -/
def dateStr (m d : Nat) : String := "2025-" ++ pad2 m ++ "-" ++ pad2 d

/-- The (month, day) pairs of 2025 in calendar order. -/
def datesMD : List (Nat × Nat) :=
  (List.range 12).flatMap fun m =>
    (List.range (monthLengths.getD m 0)).map fun d => (m + 1, d + 1)

/-- `dates = pd.date_range(start='2025-01-01', end='2025-12-31', freq='D')`:
every day of 2025 in chronological order, rendered as `YYYY-MM-DD`. -/
def dates : List String := datesMD.map fun p => dateStr p.1 p.2

/-- `(m, d)` is a real calendar day of 2025. -/
def ValidDay (m d : Nat) : Prop :=
  1 ≤ m ∧ m ≤ 12 ∧ 1 ≤ d ∧ d ≤ monthLengths.getD (m - 1) 0

instance (m d : Nat) : Decidable (ValidDay m d) := by
  unfold ValidDay; infer_instance

/-! ## Stage 2 and 3: random category and utility score assignment -/

/-- The four category labels (`categories` in the script). -/
def categories : List String := ["Stable", "Peak", "Low_Perf", "Crisis"]

/-- `np.random.randint(lo, hi)`: some value in `[lo, hi)`, selected by the raw
draw `r`. -/
def randint (lo hi r : Nat) : Nat := lo + r % (hi - lo)

/-- `np.random.choice(xs, p=...)`: some element of `xs`, selected by the raw
draw `r` (the probability weights only shape the distribution, never the
support). -/
def npChoice (xs : List Nat) (r : Nat) : Nat := xs.getD (r % xs.length) 0

/-- `np.random.choice` over a list of strings, as used for category sampling. -/
def npChoiceStr (xs : List String) (r : Nat) : String := xs.getD (r % xs.length) ""

/-- The scoring function `calculate_utility(row)` of the script: an
`if/elif` chain on the row's category.  A category outside the four labels
falls off the end, which in Python returns `None`. -/
def calculate_utility (category : String) (r : Nat) : Option Nat :=
  if category = "Stable" then some (randint 1 4 r)
  else if category = "Peak" then some (randint 3 6 r)
  else if category = "Low_Perf" then some (randint 0 3 r)
  else if category = "Crisis" then some (npChoice [0, 1, 4, 5] r)
  else none

/-- Stage 2, `df['Category'] = np.random.choice(categories, size=len(df), p=probabilities)`:
pair each date with a category drawn from the four labels, one raw draw per
row. -/
def assignCategories (cc : Nat → Nat) : List (String × String) :=
  dates.enum.map fun p => (p.2, npChoiceStr categories (cc p.1))

/-- Stage 3, `df['Utility_Score'] = df.apply(calculate_utility, axis=1)`:
score each row from its category, one raw draw per row. -/
def applyUtility (ur : Nat → Nat) (rows : List (String × String)) : List DayRecord :=
  rows.enum.map fun p =>
    { date := p.2.1, category := p.2.2, score := calculate_utility p.2.2 (ur p.1) }

/-- The simulated table: stages 1–3 composed. -/
def simulate (cc ur : Nat → Nat) : List DayRecord :=
  applyUtility ur (assignCategories cc)

/-! ## Stage 4: the manual override -/

/-- An override entry: `('YYYY-MM-DD', 'Category', Score)`. -/
abbrev Override := String × String × Nat

/-- The fixed `actual_events` list of the script, in its literal order. -/
def actual_events : List Override := [
  ("2025-01-01", "Peak", 3),
  ("2025-01-09", "Crisis", 1),
  ("2025-01-10", "Peak", 3),
  ("2025-01-11", "Low_Perf", 1),
  ("2025-01-13", "Low_Perf", 1),
  ("2025-01-14", "Low_Perf", 1),
  ("2025-01-16", "Low_Perf", 1),
  ("2025-01-18", "Crisis", 1),
  ("2025-01-19", "Crisis", 1),
  ("2025-01-20", "Crisis", 1),
  ("2025-01-21", "Crisis", 1),
  ("2025-01-22", "Low_Perf", 1),
  ("2025-01-27", "Peak", 3),
  ("2025-01-28", "Peak", 5),
  ("2025-01-30", "Crisis", 1),
  ("2025-02-26", "Crisis", 1),
  ("2025-03-01", "Peak", 5),
  ("2025-03-08", "Peak", 5),
  ("2025-03-11", "Peak", 1),
  ("2025-03-12", "Crisis", 5),
  ("2025-03-19", "Crisis", 1),
  ("2025-03-22", "Crisis", 5),
  ("2025-05-31", "Peak", 5),
  ("2025-06-01", "Peak", 5),
  ("2025-06-01", "Peak", 5),
  ("2025-06-25", "Crisis", 5),
  ("2025-07-01", "Crisis", 4),
  ("2025-07-02", "Peak", 3),
  ("2025-07-04", "Crisis", 5),
  ("2025-07-16", "Low_Perf", 2),
  ("2025-07-17", "Low_Perf", 2),
  ("2025-07-18", "Peak", 3),
  ("2025-07-19", "Crisis", 1),
  ("2025-07-20", "Low_Perf", 4),
  ("2025-07-21", "Crisis", 5),
  ("2025-08-14", "Peak", 3),
  ("2025-08-15", "Peak", 3),
  ("2025-08-28", "Crisis", 5),
  ("2025-09-20", "Peak", 3),
  ("2025-09-21", "Peak", 3),
  ("2025-10-06", "Peak", 5),
  ("2025-10-14", "Peak", 5),
  ("2025-10-17", "Crisis", 1),
  ("2025-10-24", "Peak", 5),
  ("2025-11-19", "Crisis", 1),
  ("2025-11-20", "Crisis", 5),
  ("2025-11-24", "Low_Perf", 1),
  ("2025-11-25", "Low_Perf", 1),
  ("2025-11-26", "Low_Perf", 2),
  ("2025-11-27", "Peak", 5),
  ("2025-12-01", "Peak", 4)]

/-- One iteration of the override loop:
`mask = df['Date'] == date; df.loc[mask, 'Category'] = cat; df.loc[mask, 'Utility_Score'] = score`.
Every row whose date equals the entry's date gets the entry's category and
score; all other rows are untouched. -/
def applyEvent (table : List DayRecord) (ev : Override) : List DayRecord :=
  table.map fun r =>
    if r.date = ev.1 then { date := r.date, category := ev.2.1, score := some ev.2.2 }
    else r

/-- The full override loop `for date, cat, score in actual_events: ...`,
applied in the list's literal order. -/
def applyEvents (table : List DayRecord) (evs : List Override) : List DayRecord :=
  evs.foldl applyEvent table

/-- The final table of the script: simulation then override. -/
def finalTable (cc ur : Nat → Nat) : List DayRecord :=
  applyEvents (simulate cc ur) actual_events

/-! ## Stage 6: the CSV export (`df.to_csv('utility_analysis_2025.csv', index=False)`) -/

/-- The fixed output path of the export. -/
def outputFile : String := "utility_analysis_2025.csv"

/-- The CSV header row written by `to_csv` for the three dataframe columns
(no index column since `index=False`). -/
def csvHeader : String := "Date,Category,Utility_Score"

/-- How a score cell is rendered: an integer, or an empty cell for a missing
value. -/
def scoreCell : Option Nat → String
  | some n => toString n
  | none => ""

/-- One CSV data row: the three fields of a record, comma-separated, the date
already in `YYYY-MM-DD` form. -/
def csvRow (r : DayRecord) : String :=
  r.date ++ "," ++ r.category ++ "," ++ scoreCell r.score

/-- The lines of the exported file: header first, then one row per record in
table order. -/
def csvLines (table : List DayRecord) : List String :=
  csvHeader :: table.map csvRow

/-! ### Reloading the file: a comma-splitting parser for one data row -/

/-- Split a character list at every comma (the reload direction of the CSV
round trip). -/
def splitCommas : List Char → List (List Char)
  | [] => [[]]
  | c :: rest =>
    if c = ',' then [] :: splitCommas rest
    else
      match splitCommas rest with
      | [] => [[c]]
      | f :: fs => (c :: f) :: fs

/-- Parse a non-empty all-digit field as a natural number. -/
def parseNatCore : List Char → Nat → Option Nat
  | [], acc => some acc
  | c :: cs, acc => if c.isDigit then parseNatCore cs (acc * 10 + (c.toNat - 48)) else none

/-- Parse a score field. -/
def parseNat (cs : List Char) : Option Nat :=
  if cs.isEmpty then none else parseNatCore cs 0

/-- Parse one CSV data row back into a record: exactly three comma-separated
fields, the third a numeral. -/
def parseRow (s : String) : Option DayRecord :=
  match splitCommas s.data with
  | [d, c, sc] => (parseNat sc).map fun n => { date := ⟨d⟩, category := ⟨c⟩, score := some n }
  | _ => none

/-! ## Helper functions for stating order and override facts -/

/-- Numeric value of a digit character. -/
def charDigit (c : Char) : Nat := c.toNat - 48

/-- The chronological key of a `YYYY-MM-DD` date string of 2025:
`100 * month + day`. -/
def stringKey (s : String) : Nat :=
  match s.data with
  | ['2', '0', '2', '5', '-', m1, m0, '-', d1, d0] =>
      (charDigit m1 * 10 + charDigit m0) * 100 + (charDigit d1 * 10 + charDigit d0)
  | _ => 0

/-- Boolean check that a list of numbers is strictly increasing. -/
def increasing : List Nat → Bool
  | [] => true
  | [_] => true
  | a :: b :: t => decide (a < b) && increasing (b :: t)

/-- The override payload (category, score) that the loop leaves at date `d`:
the payload of the last entry of `evs` whose date is `d`, if any. -/
def overrideAt : List Override → String → Option (String × Nat)
  | [], _ => none
  | e :: evs, d =>
    match overrideAt evs d with
    | some v => some v
    | none => if e.1 = d then some e.2 else none

/-- Apply an optional override payload to a record: `some` payloads replace
category and score outright, `none` leaves the record alone. -/
def applyOpt (o : Option (String × Nat)) (r : DayRecord) : DayRecord :=
  match o with
  | some v => { date := r.date, category := v.1, score := some v.2 }
  | none => r

/-- The last entry of `evs` whose date is `d`. -/
def lastEventAt (evs : List Override) (d : String) : Option Override :=
  evs.reverse.find? fun e => e.1 == d

/-! ## Lemmas about the override loop -/

theorem applyOpt_date (o : Option (String × Nat)) (r : DayRecord) :
    (applyOpt o r).date = r.date := by
  cases o <;> rfl

theorem applyOpt_applyOpt (o : Option (String × Nat)) (r : DayRecord) :
    applyOpt o (applyOpt o r) = applyOpt o r := by
  cases o <;> rfl

theorem applyEvent_eq (t : List DayRecord) (e : Override) :
    applyEvent t e = t.map fun r => applyOpt (if e.1 = r.date then some e.2 else none) r := by
  unfold applyEvent
  apply List.map_congr_left
  intro r _
  by_cases h : r.date = e.1
  · simp [h, applyOpt]
  · have h2 : ¬e.1 = r.date := fun hh => h hh.symm
    simp [h, h2, applyOpt]

/-- Functional characterization of the override loop: it maps every record to
the payload of the last matching override entry, and leaves the rest alone. -/
theorem applyEvents_eq_map (evs : List Override) (t : List DayRecord) :
    applyEvents t evs = t.map fun r => applyOpt (overrideAt evs r.date) r := by
  induction evs generalizing t with
  | nil =>
    show t = _
    rw [show (fun r => applyOpt (overrideAt [] r.date) r) = id from rfl, List.map_id]
  | cons e evs ih =>
    show applyEvents (applyEvent t e) evs = _
    rw [ih, applyEvent_eq, List.map_map]
    apply List.map_congr_left
    intro r _
    show applyOpt (overrideAt evs (applyOpt _ r).date) (applyOpt _ r) = _
    rw [applyOpt_date]
    show _ = applyOpt (overrideAt (e :: evs) r.date) r
    rw [show overrideAt (e :: evs) r.date =
        match overrideAt evs r.date with
        | some v => some v
        | none => if e.1 = r.date then some e.2 else none from rfl]
    cases hov : overrideAt evs r.date with
    | none => cases h : (if e.1 = r.date then some e.2 else none) <;> simp [applyOpt]
    | some v => cases h : (if e.1 = r.date then some e.2 else none) <;> simp [applyOpt]

theorem overrideAt_eq_none (evs : List Override) (d : String)
    (h : d ∉ evs.map (·.1)) : overrideAt evs d = none := by
  induction evs with
  | nil => rfl
  | cons e evs ih =>
    simp only [List.map_cons, List.mem_cons] at h
    push_neg at h
    rw [overrideAt, ih h.2]
    show (if e.1 = d then some e.2 else none) = none
    exact if_neg fun hh => h.1 hh.symm

theorem overrideAt_mem (evs : List Override) (d : String) (v : String × Nat)
    (h : overrideAt evs d = some v) : ∃ e ∈ evs, e.1 = d ∧ e.2 = v := by
  induction evs with
  | nil => exact absurd h (by simp [overrideAt])
  | cons e evs ih =>
    rw [overrideAt] at h
    cases hov : overrideAt evs d with
    | some w =>
      rw [hov] at h
      obtain ⟨e2, he2, h1, h2⟩ := ih (hov.trans (by injection h with h; rw [h]))
      exact ⟨e2, List.mem_cons_of_mem _ he2, h1, h2⟩
    | none =>
      rw [hov] at h
      by_cases hd : e.1 = d
      · rw [if_pos hd] at h
        exact ⟨e, List.mem_cons_self _ _, hd, by injection h⟩
      · rw [if_neg hd] at h
        exact absurd h (by simp)

/-- `overrideAt` computes exactly the payload of the last list entry at that
date: the later-entry-wins semantics of the sequential loop. -/
theorem overrideAt_eq_lastEventAt (evs : List Override) (d : String) :
    overrideAt evs d = (lastEventAt evs d).map (·.2) := by
  induction evs with
  | nil => rfl
  | cons e evs ih =>
    rw [overrideAt, ih]
    unfold lastEventAt
    rw [List.reverse_cons, List.find?_append]
    cases hf : evs.reverse.find? (fun x => x.1 == d) with
    | some w => simp
    | none =>
      by_cases hd : e.1 = d
      · simp [List.find?, hd]
      · have hb : (e.1 == d) = false := beq_eq_false_iff_ne.mpr hd
        simp [List.find?, hb]
        exact hd

/-! ## Lemmas about the generated calendar -/

theorem increasing_chain {α : Type} (key : α → Nat) (l : List α)
    (h : increasing (l.map key) = true) :
    List.Chain' (fun a b => key a < key b) l := by
  induction l with
  | nil => exact List.chain'_nil
  | cons a t ih =>
    cases t with
    | nil => exact List.chain'_singleton a
    | cons b t2 =>
      rw [List.map_cons, List.map_cons, increasing, Bool.and_eq_true] at h
      exact List.chain'_cons.mpr ⟨of_decide_eq_true h.1, ih h.2⟩

theorem dates_length : dates.length = 365 := by decide

theorem dates_chain : List.Chain' (fun a b => stringKey a < stringKey b) dates :=
  increasing_chain stringKey dates (by decide)

theorem dates_pairwise : List.Pairwise (fun a b => stringKey a < stringKey b) dates := by
  have ht : IsTrans String fun a b => stringKey a < stringKey b :=
    ⟨fun _ _ _ h1 h2 => Nat.lt_trans h1 h2⟩
  exact List.chain'_iff_pairwise.mp dates_chain

theorem dates_nodup : dates.Nodup := by
  refine dates_pairwise.imp ?_
  intro a b hk he
  rw [he] at hk
  exact Nat.lt_irrefl _ hk

theorem stringKey_dateStr : ∀ m < 13, ∀ d < 32,
    ValidDay m d → stringKey (dateStr m d) = 100 * m + d := by decide

theorem mem_dates_iff (s : String) :
    s ∈ dates ↔ ∃ m d, ValidDay m d ∧ s = dateStr m d := by
  constructor
  · intro hs
    rw [dates, List.mem_map] at hs
    obtain ⟨p, hp, rfl⟩ := hs
    rw [datesMD, List.mem_flatMap] at hp
    obtain ⟨m, hm, hp⟩ := hp
    rw [List.mem_map] at hp
    obtain ⟨d, hd, rfl⟩ := hp
    rw [List.mem_range] at hm hd
    refine ⟨m + 1, d + 1, ⟨Nat.succ_le_succ (Nat.zero_le m), by omega, Nat.succ_le_succ (Nat.zero_le d), ?_⟩, rfl⟩
    simpa using hd
  · rintro ⟨m, d, hv, rfl⟩
    rw [dates, List.mem_map]
    refine ⟨(m, d), ?_, rfl⟩
    rw [datesMD, List.mem_flatMap]
    obtain ⟨h1, h2, h3, h4⟩ := hv
    refine ⟨m - 1, by rw [List.mem_range]; omega, ?_⟩
    rw [List.mem_map]
    refine ⟨d - 1, by rw [List.mem_range]; omega, ?_⟩
    simp only [Prod.mk.injEq]
    omega

theorem monthLengths_le (i : Nat) : monthLengths.getD i 0 ≤ 31 := by
  rcases Nat.lt_or_ge i 12 with h | h
  · interval_cases i <;> decide
  · rw [List.getD_eq_default]
    · exact Nat.zero_le _
    · simpa [monthLengths] using h

/-! ## The date column through the pipeline -/

theorem applyUtility_map_date (ur : Nat → Nat) (rows : List (String × String)) :
    (applyUtility ur rows).map (·.date) = rows.map (·.1) :=
  calc (applyUtility ur rows).map (·.date)
      = rows.enum.map fun p => p.2.1 := by rw [applyUtility, List.map_map]; rfl
    _ = (rows.enum.map Prod.snd).map (·.1) := by rw [List.map_map]; rfl
    _ = rows.map (·.1) := by rw [List.enum_map_snd]

theorem assignCategories_map_fst (cc : Nat → Nat) :
    (assignCategories cc).map (·.1) = dates :=
  calc (assignCategories cc).map (·.1)
      = dates.enum.map Prod.snd := by rw [assignCategories, List.map_map]; rfl
    _ = dates := List.enum_map_snd dates

theorem simulate_map_date (cc ur : Nat → Nat) :
    (simulate cc ur).map (·.date) = dates := by
  rw [simulate, applyUtility_map_date, assignCategories_map_fst]

theorem applyEvents_map_date (t : List DayRecord) (evs : List Override) :
    (applyEvents t evs).map (·.date) = t.map (·.date) := by
  rw [applyEvents_eq_map, List.map_map]
  apply List.map_congr_left
  intro r _
  exact applyOpt_date _ r

theorem finalTable_map_date (cc ur : Nat → Nat) :
    (finalTable cc ur).map (·.date) = dates := by
  rw [finalTable, applyEvents_map_date, simulate_map_date]

/-! ## Locating a record by date -/

theorem find?_date_of_mem (t : List DayRecord) (d : String) (h : d ∈ t.map (·.date)) :
    ∃ rec, rec ∈ t ∧ t.find? (fun r => r.date == d) = some rec ∧ rec.date = d := by
  induction t with
  | nil => simp at h
  | cons a t ih =>
    by_cases hd : a.date = d
    · refine ⟨a, List.mem_cons_self _ _, ?_, hd⟩
      rw [List.find?_cons_of_pos]
      exact beq_iff_eq.mpr hd
    · rw [List.map_cons, List.mem_cons] at h
      have hmem : d ∈ t.map (·.date) := by
        rcases h with h | h
        · exact absurd h.symm hd
        · exact h
      obtain ⟨rec, hr, hf, hrd⟩ := ih hmem
      refine ⟨rec, List.mem_cons_of_mem _ hr, ?_, hrd⟩
      rw [List.find?_cons_of_neg, hf]
      simp [hd]

theorem finalTable_find (cc ur : Nat → Nat) (d c : String) (n : Nat)
    (hd : d ∈ dates) (ho : overrideAt actual_events d = some (c, n)) :
    (finalTable cc ur).find? (fun r => r.date == d) =
      some { date := d, category := c, score := some n } := by
  have hmem : d ∈ (simulate cc ur).map (·.date) := by rw [simulate_map_date]; exact hd
  obtain ⟨rec, hrec, hfind, hdate⟩ := find?_date_of_mem _ _ hmem
  rw [finalTable, applyEvents_eq_map, List.find?_map]
  have hpred : ((fun r : DayRecord => r.date == d) ∘
      fun r => applyOpt (overrideAt actual_events r.date) r) = fun r => r.date == d := by
    funext r
    simp [Function.comp, applyOpt_date]
  rw [hpred, hfind, Option.map_some']
  rw [hdate, ho]
  simp [applyOpt, hdate]

/-! ## Lemmas about the samplers -/

theorem getD_mod_mem {α : Type} (xs : List α) (dflt : α) (r : Nat) (h : xs ≠ []) :
    xs.getD (r % xs.length) dflt ∈ xs := by
  have hlen : 0 < xs.length := List.length_pos.mpr h
  have hlt : r % xs.length < xs.length := Nat.mod_lt r hlen
  rw [List.getD_eq_getElem?_getD, List.getElem?_eq_getElem hlt, Option.getD_some]
  exact List.getElem_mem hlt

theorem npChoiceStr_mem (r : Nat) : npChoiceStr categories r ∈ categories :=
  getD_mod_mem categories "" r (by decide)

theorem npChoice_mem (xs : List Nat) (r : Nat) (h : xs ≠ []) : npChoice xs r ∈ xs :=
  getD_mod_mem xs 0 r h

theorem calculate_utility_stable (t : Nat) :
    ∃ s ∈ ([1, 2, 3] : List Nat), calculate_utility "Stable" t = some s := by
  refine ⟨1 + t % 3, ?_, rfl⟩
  have h : t % 3 < 3 := Nat.mod_lt t (by decide)
  simp only [List.mem_cons, List.not_mem_nil]
  omega

theorem calculate_utility_peak (t : Nat) :
    ∃ s ∈ ([3, 4, 5] : List Nat), calculate_utility "Peak" t = some s := by
  refine ⟨3 + t % 3, ?_, rfl⟩
  have h : t % 3 < 3 := Nat.mod_lt t (by decide)
  simp only [List.mem_cons, List.not_mem_nil]
  omega

theorem calculate_utility_lowperf (t : Nat) :
    ∃ s ∈ ([0, 1, 2] : List Nat), calculate_utility "Low_Perf" t = some s := by
  refine ⟨0 + t % 3, ?_, rfl⟩
  have h : t % 3 < 3 := Nat.mod_lt t (by decide)
  simp only [List.mem_cons, List.not_mem_nil]
  omega

theorem calculate_utility_crisis (t : Nat) :
    ∃ s ∈ ([0, 1, 4, 5] : List Nat), calculate_utility "Crisis" t = some s :=
  ⟨npChoice [0, 1, 4, 5] t, npChoice_mem _ t (by decide), rfl⟩

theorem calculate_utility_le (c : String) (hc : c ∈ categories) (t : Nat) :
    ∃ s, calculate_utility c t = some s ∧ s ≤ 5 := by
  fin_cases hc
  · obtain ⟨s, hm, he⟩ := calculate_utility_stable t
    exact ⟨s, he, by fin_cases hm <;> decide⟩
  · obtain ⟨s, hm, he⟩ := calculate_utility_peak t
    exact ⟨s, he, by fin_cases hm <;> decide⟩
  · obtain ⟨s, hm, he⟩ := calculate_utility_lowperf t
    exact ⟨s, he, by fin_cases hm <;> decide⟩
  · obtain ⟨s, hm, he⟩ := calculate_utility_crisis t
    exact ⟨s, he, by fin_cases hm <;> decide⟩

/-! ## Invariants of the simulated and final tables -/

theorem simulate_record (cc ur : Nat → Nat) (r : DayRecord) (h : r ∈ simulate cc ur) :
    r.category ∈ categories ∧ ∃ t, r.score = calculate_utility r.category t := by
  rw [simulate, applyUtility, List.mem_map] at h
  obtain ⟨p, hp, rfl⟩ := h
  have hsnd : p.2 ∈ assignCategories cc :=
    List.getElem?_mem (List.mem_enum_iff_getElem?.mp hp)
  rw [assignCategories, List.mem_map] at hsnd
  obtain ⟨q, _, hpq⟩ := hsnd
  constructor
  · show p.2.2 ∈ categories
    rw [← hpq]
    exact npChoiceStr_mem (cc q.1)
  · exact ⟨ur p.1, rfl⟩

theorem simulate_invariant (cc ur : Nat → Nat) (r : DayRecord) (h : r ∈ simulate cc ur) :
    r.category ∈ categories ∧ ∃ s, r.score = some s ∧ s ≤ 5 := by
  obtain ⟨hcat, t, hsc⟩ := simulate_record cc ur r h
  obtain ⟨s, hs, hs5⟩ := calculate_utility_le r.category hcat t
  exact ⟨hcat, s, by rw [hsc, hs], hs5⟩

theorem actual_events_invariant :
    ∀ e ∈ actual_events, e.2.1 ∈ categories ∧ e.2.2 ≤ 5 := by decide

theorem finalTable_invariant (cc ur : Nat → Nat) (r : DayRecord) (h : r ∈ finalTable cc ur) :
    r.category ∈ categories ∧ ∃ s, r.score = some s ∧ s ≤ 5 := by
  rw [finalTable, applyEvents_eq_map, List.mem_map] at h
  obtain ⟨r0, hr0, rfl⟩ := h
  cases hov : overrideAt actual_events r0.date with
  | none =>
    exact simulate_invariant cc ur r0 hr0
  | some v =>
    obtain ⟨e, he, _, hev⟩ := overrideAt_mem _ _ _ hov
    have hinv := actual_events_invariant e he
    refine ⟨?_, v.2, rfl, ?_⟩
    · show v.1 ∈ categories
      rw [← hev]
      exact hinv.1
    · rw [← hev]
      exact hinv.2

theorem events_last :
    ∀ e ∈ actual_events, overrideAt actual_events e.1 = some e.2 := by decide

/-! ## CSV round-trip lemmas -/

theorem data_append (s t : String) : (s ++ t).data = s.data ++ t.data := rfl

theorem splitCommas_append (xs ys : List Char) (h : (',' : Char) ∉ xs) :
    splitCommas (xs ++ ',' :: ys) = xs :: splitCommas ys := by
  induction xs with
  | nil =>
    show splitCommas (',' :: ys) = [] :: splitCommas ys
    rw [splitCommas, if_pos rfl]
  | cons c cs ih =>
    rw [List.mem_cons] at h
    push_neg at h
    rw [List.cons_append, splitCommas, if_neg fun hh => h.1 hh.symm, ih h.2]

theorem splitCommas_single (xs : List Char) (h : (',' : Char) ∉ xs) :
    splitCommas xs = [xs] := by
  induction xs with
  | nil => rfl
  | cons c cs ih =>
    rw [List.mem_cons] at h
    push_neg at h
    rw [splitCommas, if_neg fun hh => h.1 hh.symm, ih h.2]

theorem parseNat_toString (n : Nat) (h : n ≤ 5) : parseNat (toString n).data = some n := by
  interval_cases n <;> decide

theorem toString_no_comma (n : Nat) (h : n ≤ 5) : (',' : Char) ∉ (toString n).data := by
  interval_cases n <;> decide

theorem dates_no_comma : ∀ s ∈ dates, (',' : Char) ∉ s.data := by decide

theorem categories_no_comma : ∀ c ∈ categories, (',' : Char) ∉ c.data := by decide

/-- Parsing one rendered CSV row recovers the record exactly, provided its
text fields contain no comma and its score is a present small integer. -/
theorem parseRow_csvRow (r : DayRecord) (n : Nat)
    (hd : (',' : Char) ∉ r.date.data) (hc : (',' : Char) ∉ r.category.data)
    (hs : r.score = some n) (hn : n ≤ 5) :
    parseRow (csvRow r) = some r := by
  have hcell : scoreCell r.score = toString n := by rw [hs, scoreCell]
  have hdata : (csvRow r).data =
      r.date.data ++ ',' :: (r.category.data ++ ',' :: (toString n).data) := by
    rw [csvRow, data_append, data_append, data_append, data_append, hcell]
    show r.date.data ++ [','] ++ r.category.data ++ [','] ++ (toString n).data = _
    simp [List.append_assoc]
  rw [parseRow, hdata, splitCommas_append _ _ hd,
    splitCommas_append _ _ hc, splitCommas_single _ (toString_no_comma n hn)]
  show (parseNat (toString n).data).map _ = some r
  rw [parseNat_toString n hn, Option.map_some']
  show some { date := r.date, category := r.category, score := some n } = some r
  rw [← hs]

/-! ## The claims -/

/-- Claim C1: after the override stage, every (date, category, score) triple
of the fixed override list whose date exists in the generated calendar
determines the record found at that date — exactly that triple's category and
score, for every possible simulated table; with duplicate dates the last
entry in list order is the one left in the table (stated in general via
`lastEventAt`); in particular the record for 2025-01-01 ends as Peak with
score 3. -/
theorem claim_C1 (cc ur : Nat → Nat) :
    (∀ e ∈ actual_events, e.1 ∈ dates →
      (finalTable cc ur).find? (fun r => r.date == e.1) =
        some { date := e.1, category := e.2.1, score := some e.2.2 }) ∧
    (∀ evs : List Override, ∀ t : List DayRecord, ∀ el : Override,
      lastEventAt evs el.1 = some el →
      ∀ r ∈ applyEvents t evs, r.date = el.1 →
        r.category = el.2.1 ∧ r.score = some el.2.2) ∧
    (finalTable cc ur).find? (fun r => r.date == "2025-01-01") =
      some { date := "2025-01-01", category := "Peak", score := some 3 } := by
  refine ⟨?_, ?_, ?_⟩
  · intro e he hd
    exact finalTable_find cc ur e.1 e.2.1 e.2.2 hd (events_last e he)
  · intro evs t el hlast r hr hrd
    rw [applyEvents_eq_map, List.mem_map] at hr
    obtain ⟨r0, hr0, rfl⟩ := hr
    have hdate : r0.date = el.1 := by
      rw [← applyOpt_date (overrideAt evs r0.date) r0]
      exact hrd
    have hov : overrideAt evs r0.date = some el.2 := by
      rw [hdate, overrideAt_eq_lastEventAt, hlast, Option.map_some']
    rw [hov]
    exact ⟨rfl, rfl⟩
  · exact finalTable_find cc ur "2025-01-01" "Peak" 3 (by decide) (by decide)

/-- Witness for C1 at the first override entry. -/
theorem claim_C1_witness :
    ((("2025-01-01", "Peak", 3) : Override) ∈ actual_events ∧ ("2025-01-01" : String) ∈ dates) ∧
    (finalTable (fun _ => 0) (fun _ => 0)).find? (fun r => r.date == "2025-01-01") =
      some { date := "2025-01-01", category := "Peak", score := some 3 } :=
  ⟨⟨by decide, by decide⟩,
    (claim_C1 (fun _ => 0) (fun _ => 0)).1 ("2025-01-01", "Peak", 3) (by decide) (by decide)⟩

/-- Claim C2: the generated calendar has exactly 365 records, in
chronological order (strictly increasing month/day keys), with no duplicates
and no gaps: its members are exactly the valid calendar days of 2025, and the
simulated table assigns its categories and scores onto exactly this date
list. -/
theorem claim_C2 :
    dates.length = 365 ∧
    List.Pairwise (fun a b => stringKey a < stringKey b) dates ∧
    dates.Nodup ∧
    (∀ s : String, s ∈ dates ↔ ∃ m d, ValidDay m d ∧ s = dateStr m d) ∧
    (∀ m < 13, ∀ d < 32, ValidDay m d → stringKey (dateStr m d) = 100 * m + d) ∧
    (∀ cc ur : Nat → Nat, (simulate cc ur).map (·.date) = dates) :=
  ⟨dates_length, dates_pairwise, dates_nodup, mem_dates_iff, stringKey_dateStr,
    simulate_map_date⟩

/-- Witness for C2 at January 1st. -/
theorem claim_C2_witness :
    (1 < 13 ∧ 1 < 32 ∧ ValidDay 1 1) ∧
    stringKey (dateStr 1 1) = 100 * 1 + 1 ∧
    ("2025-01-01" : String) ∈ dates :=
  ⟨⟨by decide, by decide, by decide⟩,
    claim_C2.2.2.2.2.1 1 (by decide) 1 (by decide) (by decide),
    (claim_C2.2.2.2.1 "2025-01-01").mpr ⟨1, 1, by decide, by decide⟩⟩

/-- Claim C3: in the simulated table, every record's score comes from the set
determined by its category: Stable from {1,2,3}, Peak from {3,4,5}, Low_Perf
from {0,1,2}, Crisis from {0,1,4,5} (never 2 or 3). -/
theorem claim_C3 (cc ur : Nat → Nat) (r : DayRecord) (h : r ∈ simulate cc ur) :
    (r.category = "Stable" → ∃ s ∈ ([1, 2, 3] : List Nat), r.score = some s) ∧
    (r.category = "Peak" → ∃ s ∈ ([3, 4, 5] : List Nat), r.score = some s) ∧
    (r.category = "Low_Perf" → ∃ s ∈ ([0, 1, 2] : List Nat), r.score = some s) ∧
    (r.category = "Crisis" →
      ∃ s ∈ ([0, 1, 4, 5] : List Nat), r.score = some s ∧ s ≠ 2 ∧ s ≠ 3) := by
  obtain ⟨-, t, hsc⟩ := simulate_record cc ur r h
  refine ⟨?_, ?_, ?_, ?_⟩ <;> intro hcat <;> rw [hsc, hcat]
  · exact calculate_utility_stable t
  · exact calculate_utility_peak t
  · exact calculate_utility_lowperf t
  · obtain ⟨s, hm, he⟩ := calculate_utility_crisis t
    refine ⟨s, hm, he, ?_, ?_⟩ <;> fin_cases hm <;> decide

/-- Witness for C3 at the first simulated record under all-zero draws. -/
theorem claim_C3_witness :
    ((⟨"2025-01-01", "Stable", some 1⟩ : DayRecord) ∈ simulate (fun _ => 0) (fun _ => 0)) ∧
    (∃ s ∈ ([1, 2, 3] : List Nat), (some 1 : Option Nat) = some s) :=
  ⟨by decide,
    (claim_C3 (fun _ => 0) (fun _ => 0) ⟨"2025-01-01", "Stable", some 1⟩ (by decide)).1 rfl⟩

/-- Claim C4: before and after the override stage, every record's category is
one of the four labels and its score is a present integer at most 5 (scores
are naturals, so the lower bound 0 is inherent). -/
theorem claim_C4 (cc ur : Nat → Nat) :
    (∀ r ∈ simulate cc ur, r.category ∈ categories ∧ ∃ s, r.score = some s ∧ s ≤ 5) ∧
    (∀ r ∈ finalTable cc ur, r.category ∈ categories ∧ ∃ s, r.score = some s ∧ s ≤ 5) :=
  ⟨fun r h => simulate_invariant cc ur r h, fun r h => finalTable_invariant cc ur r h⟩

/-- Witness for C4 at concrete records of the simulated and final tables. -/
theorem claim_C4_witness :
    ((⟨"2025-01-01", "Stable", some 1⟩ : DayRecord) ∈ simulate (fun _ => 0) (fun _ => 0)) ∧
    ((⟨"2025-01-01", "Peak", some 3⟩ : DayRecord) ∈ finalTable (fun _ => 0) (fun _ => 0)) ∧
    ("Stable" ∈ categories ∧ ∃ s, (some 1 : Option Nat) = some s ∧ s ≤ 5) ∧
    ("Peak" ∈ categories ∧ ∃ s, (some 3 : Option Nat) = some s ∧ s ≤ 5) :=
  ⟨by decide, by decide,
    (claim_C4 (fun _ => 0) (fun _ => 0)).1 ⟨"2025-01-01", "Stable", some 1⟩ (by decide),
    (claim_C4 (fun _ => 0) (fun _ => 0)).2 ⟨"2025-01-01", "Peak", some 3⟩ (by decide)⟩

/-- Claim C5 counterexample: the scoring function applied to a category
outside the four labels does not fail fast with an error: it silently
evaluates to the empty value `none`, and the scoring stage stores that empty
score in the table (the Python function falls off its `if/elif` chain and
returns `None`, which `df.apply` propagates; no exception is raised). -/
theorem claim_C5_counterexample :
    calculate_utility "Unknown" 0 = none ∧
    applyUtility (fun _ => 0) [("2025-01-01", "Unknown")] =
      [{ date := "2025-01-01", category := "Unknown", score := none }] :=
  ⟨by decide, by decide⟩

/-- Claim C5 (amended): a category outside the four labels reaching the
sampler yields no value — `calculate_utility` returns `none` for every draw,
and the scoring stage silently propagates the empty score into the record
rather than raising any error. -/
theorem claim_C5 (c : String) (h : c ∉ categories) :
    (∀ t : Nat, calculate_utility c t = none) ∧
    (∀ ur : Nat → Nat, ∀ d : String,
      applyUtility ur [(d, c)] = [{ date := d, category := c, score := none }]) := by
  have h4 : c ≠ "Stable" ∧ c ≠ "Peak" ∧ c ≠ "Low_Perf" ∧ c ≠ "Crisis" := by
    simp only [categories, List.mem_cons, List.not_mem_nil, or_false] at h
    push_neg at h
    exact h
  have hcu : ∀ t : Nat, calculate_utility c t = none := by
    intro t
    rw [calculate_utility, if_neg h4.1, if_neg h4.2.1, if_neg h4.2.2.1, if_neg h4.2.2.2]
  refine ⟨hcu, ?_⟩
  intro ur d
  have hone : applyUtility ur [(d, c)] =
      [{ date := d, category := c, score := calculate_utility c (ur 0) }] := rfl
  rw [hone, hcu (ur 0)]

/-- Witness for the amended C5 at the label "Unknown". -/
theorem claim_C5_witness :
    (("Unknown" : String) ∉ categories) ∧ calculate_utility "Unknown" 5 = none :=
  ⟨by decide, (claim_C5 "Unknown" (by decide)).1 5⟩

/-- Claim C6: the override stage neither adds nor removes records nor alters
any date (the date column and length are preserved), and any record whose
date matches no override entry is kept exactly as simulated, at its
position. -/
theorem claim_C6 (cc ur : Nat → Nat) :
    (applyEvents (simulate cc ur) actual_events).map (·.date) =
      (simulate cc ur).map (·.date) ∧
    (applyEvents (simulate cc ur) actual_events).length = (simulate cc ur).length ∧
    (∀ t : List DayRecord, ∀ evs : List Override, ∀ i : Nat, ∀ r : DayRecord,
      t[i]? = some r → r.date ∉ evs.map (·.1) → (applyEvents t evs)[i]? = some r) := by
  refine ⟨applyEvents_map_date _ _, ?_, ?_⟩
  · rw [applyEvents_eq_map, List.length_map]
  · intro t evs i r hi hnot
    rw [applyEvents_eq_map, List.getElem?_map, hi, Option.map_some',
      overrideAt_eq_none evs r.date hnot]
    rfl

/-- Witness for C6 on a one-record table whose date is not overridden. -/
theorem claim_C6_witness :
    (([⟨"2025-01-02", "Stable", some 2⟩] : List DayRecord)[0]? =
      some ⟨"2025-01-02", "Stable", some 2⟩) ∧
    ((⟨"2025-01-02", "Stable", some 2⟩ : DayRecord).date ∉ actual_events.map (·.1)) ∧
    (applyEvents [⟨"2025-01-02", "Stable", some 2⟩] actual_events)[0]? =
      some ⟨"2025-01-02", "Stable", some 2⟩ :=
  ⟨by decide, by decide,
    (claim_C6 (fun _ => 0) (fun _ => 0)).2.2 _ actual_events 0 _ (by decide) (by decide)⟩

/-- Claim C7: an override entry whose date matches no record of the table is
a no-op: the table is returned unchanged (the embedded loop body is a total
function, so no error can be raised); in particular this holds for the
simulated table and any date outside the generated calendar. -/
theorem claim_C7 :
    (∀ t : List DayRecord, ∀ ev : Override, ev.1 ∉ t.map (·.date) → applyEvent t ev = t) ∧
    (∀ cc ur : Nat → Nat, ∀ ev : Override, ev.1 ∉ dates →
      applyEvent (simulate cc ur) ev = simulate cc ur) := by
  have h1 : ∀ t : List DayRecord, ∀ ev : Override, ev.1 ∉ t.map (·.date) →
      applyEvent t ev = t := by
    intro t ev h
    rw [applyEvent]
    have hpt : ∀ r ∈ t,
        (if r.date = ev.1 then
          ({ date := r.date, category := ev.2.1, score := some ev.2.2 } : DayRecord)
        else r) = r := by
      intro r hr
      rw [if_neg]
      intro hh
      exact h (by rw [← hh]; exact List.mem_map_of_mem _ hr)
    calc t.map _ = t.map id := List.map_congr_left hpt
      _ = t := List.map_id t
  refine ⟨h1, ?_⟩
  intro cc ur ev h
  exact h1 _ ev (by rw [simulate_map_date]; exact h)

/-- Witness for C7 at a date outside 2025. -/
theorem claim_C7_witness :
    ((("2024-12-31", "Peak", 3) : Override).1 ∉ dates) ∧
    applyEvent (simulate (fun _ => 0) (fun _ => 0)) ("2024-12-31", "Peak", 3) =
      simulate (fun _ => 0) (fun _ => 0) :=
  ⟨by decide, claim_C7.2 (fun _ => 0) (fun _ => 0) ("2024-12-31", "Peak", 3) (by decide)⟩

/-- Claim C8: applying the fixed override list twice to the simulated table
gives exactly the table obtained by applying it once; override application is
idempotent for every list and table. -/
theorem claim_C8 (cc ur : Nat → Nat) :
    applyEvents (applyEvents (simulate cc ur) actual_events) actual_events =
      applyEvents (simulate cc ur) actual_events ∧
    ∀ t : List DayRecord, ∀ evs : List Override,
      applyEvents (applyEvents t evs) evs = applyEvents t evs := by
  have h : ∀ t : List DayRecord, ∀ evs : List Override,
      applyEvents (applyEvents t evs) evs = applyEvents t evs := by
    intro t evs
    rw [applyEvents_eq_map evs t, applyEvents_eq_map evs, List.map_map]
    apply List.map_congr_left
    intro r _
    show applyOpt (overrideAt evs (applyOpt (overrideAt evs r.date) r).date)
        (applyOpt (overrideAt evs r.date) r) = _
    rw [applyOpt_date]
    exact applyOpt_applyOpt _ r
  exact ⟨h _ _, h⟩

/-- Claim C9: the export serializes the final table as a header line
`Date,Category,Utility_Score` followed by exactly one comma-separated data
row per record in table order (no index column), to the fixed file name;
dates are `YYYY-MM-DD`; and re-parsing every data row reproduces the
in-memory records in the same order. -/
theorem claim_C9 (cc ur : Nat → Nat) :
    outputFile = "utility_analysis_2025.csv" ∧
    (csvLines (finalTable cc ur)).length = 366 ∧
    (csvLines (finalTable cc ur)).head? = some "Date,Category,Utility_Score" ∧
    (csvLines (finalTable cc ur)).tail.map parseRow = (finalTable cc ur).map some ∧
    (finalTable cc ur).map (·.date) = dates ∧
    (∀ s ∈ dates, ∃ m d, ValidDay m d ∧ s = dateStr m d) := by
  have hlen : (finalTable cc ur).length = 365 := by
    have hmap := congrArg List.length (finalTable_map_date cc ur)
    rwa [List.length_map, dates_length] at hmap
  refine ⟨rfl, ?_, rfl, ?_, finalTable_map_date cc ur, ?_⟩
  · rw [csvLines, List.length_cons, List.length_map, hlen]
  · rw [csvLines, List.tail_cons, List.map_map]
    apply List.map_congr_left
    intro r hr
    obtain ⟨hcat, n, hs, hn⟩ := finalTable_invariant cc ur r hr
    have hrd : r.date ∈ dates := by
      rw [← finalTable_map_date cc ur]
      exact List.mem_map_of_mem _ hr
    exact parseRow_csvRow r n (dates_no_comma r.date hrd)
      (categories_no_comma r.category hcat) hs hn
  · intro s hs
    exact (mem_dates_iff s).mp hs

/-- Witness for C9 at January 1st. -/
theorem claim_C9_witness :
    ("2025-01-01" : String) ∈ dates ∧
    (∃ m d, ValidDay m d ∧ "2025-01-01" = dateStr m d) :=
  ⟨by decide, (claim_C9 (fun _ => 0) (fun _ => 0)).2.2.2.2.2 "2025-01-01" (by decide)⟩

/-- Claim C10: the override stage checks no category/score consistency; the
entries for 2025-03-11 (Peak, 1) and 2025-07-20 (Low_Perf, 4) are applied
verbatim even though the sampler can never produce score 1 for Peak or score
4 for Low_Perf, so the final table contains those out-of-range pairs. -/
theorem claim_C10 (cc ur : Nat → Nat) :
    (finalTable cc ur).find? (fun r => r.date == "2025-03-11") =
      some { date := "2025-03-11", category := "Peak", score := some 1 } ∧
    (∀ t : Nat, calculate_utility "Peak" t ≠ some 1) ∧
    (finalTable cc ur).find? (fun r => r.date == "2025-07-20") =
      some { date := "2025-07-20", category := "Low_Perf", score := some 4 } ∧
    (∀ t : Nat, calculate_utility "Low_Perf" t ≠ some 4) := by
  refine ⟨finalTable_find cc ur _ _ _ (by decide) (by decide), ?_,
    finalTable_find cc ur _ _ _ (by decide) (by decide), ?_⟩
  · intro t h
    have h2 : some (randint 3 6 t) = some 1 := h
    rw [randint] at h2
    injection h2 with h3
    have hm : t % (6 - 3) < 3 := Nat.mod_lt t (by decide)
    omega
  · intro t h
    have h2 : some (randint 0 3 t) = some 4 := h
    rw [randint] at h2
    injection h2 with h3
    have hm : t % (3 - 0) < 3 := Nat.mod_lt t (by decide)
    omega

/-- Witness for C10: instantiation of its sampler-range conjunct. -/
theorem claim_C10_witness : calculate_utility "Peak" 7 ≠ some 1 :=
  (claim_C10 (fun _ => 0) (fun _ => 0)).2.1 7

end Volatility
